import Mathlib

/-
Verification development for the PaperQA preprocessing pipeline
(src/Upload_papers/Preprocessing/chunk_and_embed.py).

Python strings are modelled as lists of characters (`Str`); each helper
below is a direct translation of the corresponding Python string
operation, restricted to ASCII semantics for character classes
(digits, letters, whitespace), which is what the pipeline's inputs use.
Python float comparisons of ratios against decimal literals are modelled
as exact rational comparisons, written as cross-multiplied natural-number
inequalities in the executable definitions.
-/

namespace PaperQA

abbrev Str := List Char

/-- Coerce a Lean string literal to the `List Char` model. -/
def str (s : String) : Str := s.data

/-- ASCII whitespace, matching Python `str.split` / `str.strip` defaults. -/
def isSpace (c : Char) : Bool :=
  c == ' ' || c == '\t' || c == '\n' || c == '\r' || c == '\x0b' || c == '\x0c'

def isDigitA (c : Char) : Bool := '0' ≤ c && c ≤ '9'

def isAlphaA (c : Char) : Bool := ('a' ≤ c && c ≤ 'z') || ('A' ≤ c && c ≤ 'Z')

def isLowerA (c : Char) : Bool := 'a' ≤ c && c ≤ 'z'

/-- Python `str.strip()` (no argument): drop leading and trailing whitespace. -/
def pyStrip (s : Str) : Str :=
  ((s.dropWhile isSpace).reverse.dropWhile isSpace).reverse

/-- Helper for `pySplit`: `cur` is the (reversed) word being accumulated. -/
def pySplitAux : Str → Str → List Str
  | [], cur => if cur = [] then [] else [cur.reverse]
  | c :: rest, cur =>
    if isSpace c then
      if cur = [] then pySplitAux rest [] else cur.reverse :: pySplitAux rest []
    else pySplitAux rest (c :: cur)

/-- Python `str.split()` (no argument): split on whitespace runs, no empties. -/
def pySplit (s : Str) : List Str := pySplitAux s []

/-- Python `str.split("\n")`: split on newline, keeping empty pieces. -/
def splitNL : Str → List Str
  | [] => [[]]
  | c :: rest =>
    if c = '\n' then [] :: splitNL rest
    else
      match splitNL rest with
      | [] => [[c]]
      | w :: ws => (c :: w) :: ws

/-- Python `str.split("\n\n")`: split on the two-character separator,
leftmost non-overlapping occurrences, keeping empty pieces. -/
def splitNN : Str → List Str
  | [] => [[]]
  | '\n' :: '\n' :: rest => [] :: splitNN rest
  | c :: rest =>
    match splitNN rest with
    | [] => [[c]]
    | w :: ws => (c :: w) :: ws

/-- Python `sep.join(xs)`. -/
def joinSep (sep : Str) : List Str → Str
  | [] => []
  | [x] => x
  | x :: xs => x ++ sep ++ joinSep sep xs

/-- ASCII lowercase of one character (Python `str.lower` restricted to ASCII). -/
def lowerChar (c : Char) : Char :=
  if 'A' ≤ c ∧ c ≤ 'Z' then Char.ofNat (c.toNat + 32) else c

/-- Python `str.lower()` (ASCII). -/
def pyLower (s : Str) : Str := s.map lowerChar

/-- Python `pat in s` (substring containment). -/
def isSubstr (pat : Str) : Str → Bool
  | [] => pat.isEmpty
  | c :: rest => pat.isPrefixOf (c :: rest) || isSubstr pat rest

/-- Python `str.isupper()` restricted to ASCII: at least one cased character
and no lowercase cased character. -/
def pyIsUpper (s : Str) : Bool := s.any isAlphaA && !(s.any isLowerA)

/--
`Document_processing._is_proper_chunk_text` (chunk_and_embed.py lines 143-160).
The Python float ratio comparisons (`digits <= 0.4` etc.) are modelled as
exact rational comparisons written with cross-multiplied naturals
(e.g. `digits / n <= 2/5` becomes `5 * digits <= 2 * n`); the guard
ensures `n = len(s) >= 35 > 0` and `nw = len(words) >= 5 > 0`, so
Python's `max(n, 1)` and `max(nw, 1)` equal `n` and `nw` here.
-/
def is_proper_chunk_text (content : Str) : Bool :=
  let s := pyStrip content
  let words := pySplit s
  if s = [] ∨ s.length < 35 ∨ words.length < 5 then false
  else
    let n := s.length
    let nw := words.length
    let digits := (s.filter isDigitA).length
    let single := (words.filter (fun w => w.length == 1)).length
    let alpha := (words.filter (fun w => w.any isAlphaA)).length
    let uniq := (words.map pyLower).dedup.length
    let sumLen := (words.map List.length).sum
    let hasEnd := s.any (fun c => c == '.' || c == '!' || c == '?')
    decide (5 * digits ≤ 2 * n) && decide (25 * single ≤ 7 * nw)
      && decide (nw ≤ 2 * alpha) && decide (3 * nw ≤ 10 * uniq)
      && (hasEnd || decide (16 * nw ≤ 5 * sumLen))
      && !(pyIsUpper s && decide (n < 80))

/-- Greedy run of ASCII digits: returns (consumed digits, rest). -/
def grabDigits : Str → Str × Str
  | [] => ([], [])
  | c :: rest =>
    if isDigitA c then
      let (d, r) := grabDigits rest
      (c :: d, r)
    else ([], c :: rest)

/-- Greedy parse of `(\.\d+)*`: repeatedly consume a dot followed by a
nonempty digit run.  `fuel` bounds the recursion; callers pass the length
of the input, which always suffices since every round consumes at least
two characters. -/
def grabDots : Nat → Str → Str × Str
  | 0, s => ([], s)
  | fuel + 1, s =>
    match s with
    | '.' :: rest =>
      match grabDigits rest with
      | ([], _) => ([], s)
      | (ds, r) =>
        let (more, fin) := grabDots fuel r
        ('.' :: ds ++ more, fin)
    | _ => ([], s)

/-- Python `r"^\s*(\d+(?:\.\d+)*)\s+(.+?)\s*$"` applied with `re.match`
(chunk_and_embed.py line 192, `section_header`); returns
`some (group 1, group 2)` on success.  Callers pass stripped single
lines (no newline, no trailing whitespace), for which this parse
coincides with the Python regex: group 1 is the greedy dotted-number
prefix (a dot is consumed only with a following digit, so no match ends
in a dot), at least one whitespace must follow, and group 2 is the
remaining text with surrounding whitespace removed, required nonempty. -/
def headerMatch (s : Str) : Option (Str × Str) :=
  let s1 := s.dropWhile isSpace
  match grabDigits s1 with
  | ([], _) => none
  | (d1, r1) =>
    let dd := grabDots r1.length r1
    let num := d1 ++ dd.1
    match dd.2 with
    | [] => none
    | c :: rest =>
      if isSpace c then
        let title := ((rest.dropWhile isSpace).reverse.dropWhile isSpace).reverse
        if title = [] then none else some (num, title)
      else none

/-- `_is_references_or_bibliography` (lines 245-247). -/
def isRefsOrBib (title : Str) : Bool :=
  isSubstr (str "references") (pyLower title) || isSubstr (str "bibliography") (pyLower title)

/-- Python `r"^\d+(\.\d+)*\s+(references|bibliography)(\s|$)"` applied with
`re.match` to the lowercased stripped line (inside
`_is_standalone_references_header`): a dotted number, whitespace, then the
literal word `references` or `bibliography` followed by whitespace or
end of input. -/
def matchNumRefs (t : Str) : Bool :=
  match grabDigits t with
  | ([], _) => false
  | (_, r1) =>
    let dd := grabDots r1.length r1
    match dd.2 with
    | [] => false
    | c :: rest =>
      isSpace c &&
        (let r3 := rest.dropWhile isSpace
         ((str "references").isPrefixOf r3 && wsOrEnd (r3.drop 10)) ||
         ((str "bibliography").isPrefixOf r3 && wsOrEnd (r3.drop 12)))
where
  wsOrEnd : Str → Bool
    | [] => true
    | c :: _ => isSpace c

/-- `_is_standalone_references_header` (lines 251-263). -/
def isStandaloneRefsHeader (line : Str) : Bool :=
  let s := pyStrip line
  if s = [] ∨ (pySplit s).length > 10 then false
  else
    let t := pyLower s
    if t = str "references" ∨ t = str "bibliography" then true
    else if matchNumRefs t then true
    else if (pySplit s).length ≤ 4
        ∧ ((str "references ").isPrefixOf t ∨ (str "bibliography ").isPrefixOf t) then true
    else false

/-- `_is_appendix_header` (lines 265-275). -/
def isAppendixHeader (line : Str) : Bool :=
  let s := pyStrip line
  if s = [] then false
  else
    let t := pyLower s
    if ¬isSubstr (str "appendix") t ∧ ¬isSubstr (str "appendices") t then false
    else decide ((pySplit s).length ≤ 15) && decide (s.length ≤ 120)

/-- `RAGChunk` (ChunkData.py) restricted to the fields `process_document`
fills (`embedding` is attached later by `embed_chunks` and is not part of
the segmentation core).  The Python field `section` is a Lean keyword, so
it is called `sec` here. -/
structure RAGChunk where
  doc_id : Str
  content : Str
  sec : Option Str
  subsection : Option Str
deriving DecidableEq

/-- The mutable locals of `process_document` (lines 187-196 and 277):
`in_references`, `current_section`, `current_subsection`,
`section_content`, `current_part`, `chunks_out`, `section_sentences`. -/
structure PState where
  inRefs : Bool
  curSection : Option Str
  curSubsection : Option Str
  sectionContent : List Str
  currentPart : List Str
  chunks : List RAGChunk
  sectionSentences : List Str
deriving DecidableEq

/-- The two external collaborators the segmentation core calls:
the LlamaIndex sentence splitter (`SentenceSplitter.get_nodes_from_documents`)
and the chat-completion response text used by
`_extract_section_usage_line` (the `resp.choices[0].message.content or ""`
string).  Both are out of scope per the spec and modelled as oracles. -/
structure Collab where
  splitter : Str → List Str
  factFn : Str → Str

/-- `_extract_section_usage_line` (lines 86-111) around a non-raising
oracle: empty input short-circuits to `""` before any request; otherwise
the response is stripped and its first line returned. -/
def extract_section_usage_line (oracle : Str → Str) (section_text : Str) : Str :=
  if section_text = [] ∨ pyStrip section_text = [] then []
  else
    let line := pyStrip (oracle (section_text.take 8000))
    if line = [] then [] else pyStrip ((splitNL line).headD [])

/-- `_chunk_section` (lines 162-169): strip, return no windows for empty
text, otherwise the splitter's windows with blank windows dropped. -/
def chunk_section (splitter : Str → List Str) (text : Str) : List Str :=
  let t := pyStrip text
  if t = [] then []
  else (splitter t).filter (fun c => pyStrip c ≠ [])

/-- The closure `flush` inside `process_document` (lines 197-220). -/
def flush (co : Collab) (docId : Str) (st : PState) : PState :=
  if st.sectionContent = [] then st
  else
    let combined := pyStrip (joinSep (str " ") st.sectionContent)
    if combined = [] then st
    else
      let usage := extract_section_usage_line co.factFn combined
      let st1 :=
        if usage ≠ [] then { st with sectionSentences := st.sectionSentences ++ [usage] }
        else st
      let newChunks :=
        ((chunk_section co.splitter combined).filter
            (fun content => decide (content ≠ []) && is_proper_chunk_text content)).map
          (fun content => RAGChunk.mk docId content st.curSection st.curSubsection)
      { st1 with chunks := st1.chunks ++ newChunks, sectionContent := [] }

/-- `if current_part: section_content.append("\n".join(current_part))`
(lines 286-287, 302-303, 310-311, 324-325). -/
def appendPart (st : PState) : PState :=
  if st.currentPart ≠ [] then
    { st with sectionContent := st.sectionContent ++ [joinSep (str "\n") st.currentPart] }
  else st

/-- Section/subsection update on an appendix resumption header
(lines 289-298): a numbered header with a dotted prefix opens a
subsection, anything else opens a section. -/
def applyHeaderAfterAppendix (st : PState) (ls : Str) : PState :=
  match headerMatch ls with
  | some (num, _) =>
    if (pySplit ls).length ≤ 15 then
      if num.contains '.' then { st with curSubsection := some ls }
      else { st with curSection := some ls, curSubsection := none }
    else { st with curSection := some ls, curSubsection := none }
  | none => { st with curSection := some ls, curSubsection := none }

/-- One iteration of the per-line loop of `process_document`
(lines 281-323).  Note that the two branches that enter the references
state (lines 301-306 and 313-315) do not reset `current_part`, while the
branches that open a section or subsection do. -/
def processLine (co : Collab) (docId : Str) (st : PState) (line : Str) : PState :=
  let ls := pyStrip line
  if st.inRefs then
    if isAppendixHeader ls then
      { applyHeaderAfterAppendix (flush co docId (appendPart { st with inRefs := false })) ls with
          currentPart := [] }
    else st
  else if isStandaloneRefsHeader ls then
    { flush co docId (appendPart st) with inRefs := true }
  else
    match headerMatch ls with
    | some (num, title) =>
      if (pySplit ls).length ≤ 15 then
        let st2 := flush co docId (appendPart st)
        if isRefsOrBib (pyStrip title) then { st2 with inRefs := true }
        else if num.contains '.' then { st2 with curSubsection := some ls, currentPart := [] }
        else { st2 with curSection := some ls, curSubsection := none, currentPart := [] }
      else { st with currentPart := st.currentPart ++ [line] }
    | none => { st with currentPart := st.currentPart ++ [line] }

/-- `if not in_references and current_part: section_content.append(...)`
at the end of each block (lines 324-325). -/
def blockEnd (st : PState) : PState :=
  if st.inRefs = false then appendPart st else st

/-- One iteration of the per-block loop (lines 278-325): reset
`current_part`, process the block's lines, then append any leftover part. -/
def processBlock (co : Collab) (docId : Str) (st : PState) (block : Str) : PState :=
  blockEnd ((splitNL block).foldl (processLine co docId) { st with currentPart := [] })

/-- Initial segmentation state (lines 189-196, 277). -/
def initState : PState :=
  { inRefs := false, curSection := some (str "Abstract"), curSubsection := none,
    sectionContent := [], currentPart := [], chunks := [], sectionSentences := [] }

/-- The whole block loop followed by the final
`if not in_references: flush()` (lines 278-327). -/
def runBlocks (co : Collab) (docId : Str) (blocks : List Str) : PState :=
  let st := blocks.foldl (processBlock co docId) initState
  if st.inRefs = false then flush co docId st else st

/-- `re.match(r"^\s*abstract\s*$", ln.strip(), re.IGNORECASE)` (line 228):
the stripped line, lowercased, is exactly `abstract`. -/
def isAbstractLine (ln : Str) : Bool := pyLower (pyStrip ln) = str "abstract"

/-- The first-page scan of lines 226-230: index just after the first
`Abstract` line, if any (`abstract_start`). -/
def findAbstractStart : List Str → Nat → Option Nat
  | [], _ => none
  | ln :: rest, i =>
    if isAbstractLine ln then some (i + 1) else findAbstractStart rest (i + 1)

/-- Lines 224-234: `first_page_from_abstract` computed from the stripped
first-page text. -/
def firstPageFromAbstract (t : Str) : Str :=
  let lines := splitNL t
  match findAbstractStart lines 0 with
  | some k => pyStrip (joinSep (str "\n") (lines.drop k))
  | none => t

/-- Lines 224-241 and 277-327: assemble the full text from the per-page
texts (the `PdfReader` page extraction is the external input), split into
blank-line-separated blocks and run the segmentation loop. -/
def processPages (co : Collab) (docId : Str) (pages : List Str) : PState :=
  let first_page_text := pyStrip (pages.headD [])
  let fpa := firstPageFromAbstract first_page_text
  let rest_pages := joinSep (str "\n\n") ((pages.drop 1).map pyStrip)
  let full_text := fpa ++ (if pyStrip rest_pages ≠ [] then str "\n\n" ++ rest_pages else [])
  let blocks := ((splitNN full_text).map pyStrip).filter (fun b => b ≠ [])
  runBlocks co docId blocks

/-! ### The same segmentation loop with a collaborator that can raise

`_extract_section_usage_line` performs a network request
(`client.chat.completions.create`) with no surrounding `try`/`except`
anywhere in `process_document`, so a raised error propagates out of
`flush` and out of `process_document`.  To reason about that, the
following definitions repeat the loop above with the fact-sentence
oracle returning `Except Unit Str`; an `Except.error` models a raised
exception, which the Python code simply propagates.  Instantiating the
oracle with `Except.ok ∘ f` recovers the total model above
(`runBlocksE_ok`). -/

structure CollabE where
  splitter : Str → List Str
  factFn : Str → Except Unit Str

/-- `_extract_section_usage_line` when the chat request may raise. -/
def extract_section_usage_lineE (oracle : Str → Except Unit Str)
    (section_text : Str) : Except Unit Str :=
  if section_text = [] ∨ pyStrip section_text = [] then Except.ok []
  else
    match oracle (section_text.take 8000) with
    | Except.error e => Except.error e
    | Except.ok resp =>
      let line := pyStrip resp
      Except.ok (if line = [] then [] else pyStrip ((splitNL line).headD []))

/-- `flush` when the fact-sentence request may raise: an exception
escapes before any chunk is appended and before the buffer is cleared. -/
def flushE (co : CollabE) (docId : Str) (st : PState) : Except Unit PState :=
  if st.sectionContent = [] then Except.ok st
  else
    let combined := pyStrip (joinSep (str " ") st.sectionContent)
    if combined = [] then Except.ok st
    else
      match extract_section_usage_lineE co.factFn combined with
      | Except.error e => Except.error e
      | Except.ok usage =>
        let st1 :=
          if usage ≠ [] then { st with sectionSentences := st.sectionSentences ++ [usage] }
          else st
        let newChunks :=
          ((chunk_section co.splitter combined).filter
              (fun content => decide (content ≠ []) && is_proper_chunk_text content)).map
            (fun content => RAGChunk.mk docId content st.curSection st.curSubsection)
        Except.ok { st1 with chunks := st1.chunks ++ newChunks, sectionContent := [] }

/-- `processLine` when the fact-sentence request may raise. -/
def processLineE (co : CollabE) (docId : Str) (st : PState) (line : Str) :
    Except Unit PState :=
  let ls := pyStrip line
  if st.inRefs then
    if isAppendixHeader ls then
      match flushE co docId (appendPart { st with inRefs := false }) with
      | Except.error e => Except.error e
      | Except.ok st3 =>
        Except.ok { applyHeaderAfterAppendix st3 ls with currentPart := [] }
    else Except.ok st
  else if isStandaloneRefsHeader ls then
    match flushE co docId (appendPart st) with
    | Except.error e => Except.error e
    | Except.ok st2 => Except.ok { st2 with inRefs := true }
  else
    match headerMatch ls with
    | some (num, title) =>
      if (pySplit ls).length ≤ 15 then
        match flushE co docId (appendPart st) with
        | Except.error e => Except.error e
        | Except.ok st2 =>
          if isRefsOrBib (pyStrip title) then Except.ok { st2 with inRefs := true }
          else if num.contains '.' then
            Except.ok { st2 with curSubsection := some ls, currentPart := [] }
          else
            Except.ok
              { st2 with curSection := some ls, curSubsection := none, currentPart := [] }
      else Except.ok { st with currentPart := st.currentPart ++ [line] }
    | none => Except.ok { st with currentPart := st.currentPart ++ [line] }

/-- `processBlock` when the fact-sentence request may raise. -/
def processBlockE (co : CollabE) (docId : Str) (st : PState) (block : Str) :
    Except Unit PState :=
  match (splitNL block).foldlM (processLineE co docId) { st with currentPart := [] } with
  | Except.error e => Except.error e
  | Except.ok st1 => Except.ok (blockEnd st1)

/-- `runBlocks` when the fact-sentence request may raise. -/
def runBlocksE (co : CollabE) (docId : Str) (blocks : List Str) : Except Unit PState :=
  match blocks.foldlM (processBlockE co docId) initState with
  | Except.error e => Except.error e
  | Except.ok st => if st.inRefs = false then flushE co docId st else Except.ok st

/-! ### Summary aggregation, embedding, DB sanitation -/

/-- `_condense_sentences_to_summary` (lines 116-140) with the chat
response modelled as an oracle on the formatted sentence list; the
second component counts the requests issued (the Python code constructs
the client and issues the request only past the empty-input guard). -/
def condense_sentences_to_summary (oracle : Str → Str)
    (section_sentences : List Str) : Str × Nat :=
  if section_sentences = [] then ([], 0)
  else
    let sentences_text := joinSep (str "\n") (section_sentences.map (fun s => str "- " ++ s))
    (pyStrip (oracle sentences_text), 1)

/-- `_embed_text` (lines 346-357) with `resp.data` modelled as an oracle
returning the list of embedding vectors; the second component counts the
embedding requests issued.  Empty or blank text returns `none` before
any request; an empty `resp.data` also yields `none`. -/
def embed_text {Vec : Type} (oracle : Str → List Vec) (text : Str) :
    Option Vec × Nat :=
  if text = [] ∨ pyStrip text = [] then (none, 0)
  else
    match oracle (pyStrip text) with
    | [] => (none, 1)
    | e :: _ => (some e, 1)

/-- `_sanitize_text_for_db` (lines 380-385). -/
def sanitize_text_for_db : Option Str → Option Str
  | none => none
  | some s =>
    some (s.filter (fun c =>
      !(c == '\x00') && (decide (32 ≤ c.toNat) || c == '\n' || c == '\r' || c == '\t')))

/-! ### Definitions taken from the spec's words, for comparison -/

/-- Modelled from the spec: the §4.3 ProseClassifier contract as the
spec states it (claim C3), with the ratio thresholds written as the
rational fractions the spec uses. -/
def C3SpecAccept (w : Str) : Prop :=
  let s := pyStrip w
  let words := pySplit s
  35 ≤ s.length ∧ 5 ≤ words.length ∧
  ((s.filter isDigitA).length : ℚ) / (s.length : ℚ) ≤ 0.40 ∧
  (((words.filter (fun w => w.length == 1)).length : ℚ) / (words.length : ℚ) ≤ 0.28) ∧
  (0.50 ≤ ((words.filter (fun w => w.any isAlphaA)).length : ℚ) / (words.length : ℚ)) ∧
  (0.30 ≤ (((words.map pyLower).dedup.length : ℚ) / (words.length : ℚ))) ∧
  (s.any (fun c => c == '.' || c == '!' || c == '?') = true ∨
    (3.2 : ℚ) ≤ (((words.map List.length).sum : ℚ) / (words.length : ℚ))) ∧
  ¬(pyIsUpper s = true ∧ s.length < 80)

/-- Modelled from the spec: the §4.1 standalone references header rule as
the spec states it (claim C5): at most 10 tokens AND (lowercase exactly
`references`/`bibliography`, OR the numbered references pattern, OR at
most 4 tokens and lowercase starting with `references `/`bibliography `). -/
def specStandaloneRefs (line : Str) : Bool :=
  let s := pyStrip line
  let t := pyLower s
  decide ((pySplit s).length ≤ 10) &&
    ((t == str "references") || (t == str "bibliography") ||
     matchNumRefs t ||
     (decide ((pySplit s).length ≤ 4) &&
       ((str "references ").isPrefixOf t || (str "bibliography ").isPrefixOf t)))

/-- A line that the state machine can record as a subsection label: it
matches the numbered-header pattern with at most 15 tokens and its
numeric prefix contains a dot (claim C6). -/
def SubHeaderLine (s : Str) : Bool :=
  match headerMatch s with
  | some (num, _) => num.contains '.' && decide ((pySplit s).length ≤ 15)
  | none => false

/-- The stripped forms of all lines the segmenter reads from a block
list, in reading order. -/
def observedLines (blocks : List Str) : List Str :=
  blocks.flatMap (fun b => (splitNL b).map pyStrip)

/-- A subsection label is justified by the line list `L`: it is a
numbered subsection-header line occurring among the observed lines. -/
def GoodSub (L : List Str) (o : Option Str) : Prop :=
  ∀ s, o = some s → SubHeaderLine s = true ∧ s ∈ L

/-- The claim-C6 invariant of a segmentation state relative to the
observed lines `L`: the current section is never null, and the current
subsection label — and every emitted chunk's labels — are justified. -/
def GoodState (L : List Str) (st : PState) : Prop :=
  st.curSection ≠ none ∧ GoodSub L st.curSubsection ∧
  ∀ c ∈ st.chunks, c.sec ≠ none ∧ GoodSub L c.subsection

/-- A character PostgreSQL text columns reject, as claim C10 describes
the removal set: the null byte, or any code point below 32 other than
newline, carriage return and tab. -/
def pgRejected (c : Char) : Bool :=
  c == '\x00' || (decide (c.toNat < 32) && !(c == '\n' || c == '\r' || c == '\t'))

/-! ### Concrete inputs used in the claim theorems -/

/-- A collaborator whose splitter returns the whole section as one window
and whose fact oracle echoes its input. -/
def coId : Collab := ⟨fun t => [t], fun t => t⟩

/-- A collaborator whose fact-sentence request always raises. -/
def coFail : CollabE := ⟨fun t => [t], fun _ => Except.error ()⟩

/-- A block in which body text, a standalone `References` header and an
`Appendix` header share one blank-line-separated block — the common case
when a references list and an appendix start on the same PDF page. -/
def dupBlock : Str :=
  str "the quick brown fox jumps over the lazy dog near the river bank.\nReferences\n[1] J. Smith. Some paper. 2020.\nAppendix A\nthe appendix text goes here with more than thirty five letters in total."

def foxLine : Str := str "the quick brown fox jumps over the lazy dog near the river bank."

def appxLine : Str :=
  str "the appendix text goes here with more than thirty five letters in total."

/-- An accepted window whose distinct-word fraction is 4/10: repeating it
drives the fraction to 4/20 < 0.30. -/
def repWindow : Str := str "red blue green red blue green red blue green today."

/-! ### Helper lemmas -/

theorem pyStrip_eq_rdropWhile (s : Str) :
    pyStrip s = List.rdropWhile isSpace (s.dropWhile isSpace) := rfl

theorem head?_dropWhile_false (p : Char → Bool) (l : List Char) :
    ∀ a, (l.dropWhile p).head? = some a → p a = false := by
  induction l with
  | nil => intro a h; simp [List.dropWhile] at h
  | cons b t ih =>
    intro a h
    rw [List.dropWhile_cons] at h
    by_cases hb : p b = true
    · rw [if_pos hb] at h
      exact ih a h
    · rw [if_neg hb] at h
      simp only [List.head?_cons, Option.some.injEq] at h
      subst h
      exact Bool.not_eq_true _ |>.mp hb

theorem dropWhile_eq_self_of_head? (p : Char → Bool) (l : List Char)
    (h : ∀ a, l.head? = some a → p a = false) : l.dropWhile p = l := by
  cases l with
  | nil => rfl
  | cons a t =>
    rw [List.dropWhile_cons, h a rfl]
    simp

theorem pyStrip_idem (s : Str) : pyStrip (pyStrip s) = pyStrip s := by
  rw [pyStrip_eq_rdropWhile, pyStrip_eq_rdropWhile]
  have h1 : List.dropWhile isSpace (List.rdropWhile isSpace (s.dropWhile isSpace)) =
      List.rdropWhile isSpace (s.dropWhile isSpace) := by
    apply dropWhile_eq_self_of_head?
    intro a ha
    obtain ⟨r, hr⟩ := List.rdropWhile_prefix isSpace (s.dropWhile isSpace)
    rcases hT : List.rdropWhile isSpace (s.dropWhile isSpace) with _ | ⟨b, t⟩
    · rw [hT] at ha
      simp at ha
    · rw [hT] at ha hr
      simp only [List.head?_cons, Option.some.injEq] at ha
      subst ha
      apply head?_dropWhile_false isSpace s
      rw [← hr]
      rfl
  rw [h1, List.rdropWhile_idempotent]

theorem keepChar_eq (c : Char) :
    (!(c == '\x00') && (decide (32 ≤ c.toNat) || c == '\n' || c == '\r' || c == '\t')) =
    !pgRejected c := by
  rw [Bool.eq_iff_iff]
  simp only [pgRejected, Bool.and_eq_true, Bool.or_eq_true, Bool.not_eq_true',
    Bool.not_eq_true, beq_iff_eq, decide_eq_true_eq, Bool.or_eq_false_iff,
    Bool.and_eq_false_iff, decide_eq_false_iff_not, Nat.not_lt, beq_eq_false_iff_ne,
    ne_eq, Bool.not_eq_false']
  tauto

theorem appendPart_fields (st : PState) :
    (appendPart st).inRefs = st.inRefs ∧
    (appendPart st).curSection = st.curSection ∧
    (appendPart st).curSubsection = st.curSubsection ∧
    (appendPart st).chunks = st.chunks ∧
    (appendPart st).currentPart = st.currentPart := by
  unfold appendPart
  split <;> exact ⟨rfl, rfl, rfl, rfl, rfl⟩

theorem flush_fields (co : Collab) (docId : Str) (st : PState) :
    (flush co docId st).inRefs = st.inRefs ∧
    (flush co docId st).curSection = st.curSection ∧
    (flush co docId st).curSubsection = st.curSubsection ∧
    (flush co docId st).currentPart = st.currentPart := by
  simp only [flush]
  split
  · exact ⟨rfl, rfl, rfl, rfl⟩
  · split
    · exact ⟨rfl, rfl, rfl, rfl⟩
    · split <;> exact ⟨rfl, rfl, rfl, rfl⟩

theorem ifChain (a b c : Prop) [Decidable a] [Decidable b] [Decidable c] :
    (if a then true else if b then true else if c then true else false) =
    (decide a || decide b || decide c) := by
  by_cases a <;> by_cases b <;> by_cases c <;> simp [*]

theorem beq_eq_decide {α : Type} [DecidableEq α] (a b : α) :
    (a == b) = decide (a = b) := by
  by_cases h : a = b <;> simp [h]

theorem decide_coe (b : Bool) : decide (b = true) = b := by
  cases b <;> simp

/-! ### Claim theorems -/

/-- C1, counterexample: the claim asserts that a raised error of the
fact-sentence collaborator leaves chunk emission intact and lets
processing continue.  On this two-block document (an abstract sentence
and a numbered `2 Method` section, both of which the classifier accepts)
running the segmenter with a collaborator whose fact-sentence request
always raises does not produce those chunks: the whole run aborts with
the propagated error, emitting no chunks at all and never processing the
second section. -/
theorem C1_counterexample :
    runBlocksE coFail (str "d")
      [foxLine,
       str "2 Method\nthe method section also contains a full prose sentence for chunking."] =
    Except.error () := by rfl

/-- C1, amended: a raised error of the fact-sentence collaborator is not
contained: whenever the accumulated buffer joins to nonblank text (the
only case in which `flush` issues the request at all), the flush
propagates the error and emits nothing — no chunk, no fact-sentence, and
the buffer is not even cleared. -/
theorem C1_fact_error_aborts_flush (splitter : Str → List Str) (docId : Str) (st : PState)
    (h : pyStrip (joinSep (str " ") st.sectionContent) ≠ []) :
    flushE ⟨splitter, fun _ => Except.error ()⟩ docId st = Except.error () := by
  have hsc : st.sectionContent ≠ [] := by
    intro hempty
    apply h
    rw [hempty]
    rfl
  unfold flushE
  rw [if_neg hsc, if_neg h]
  unfold extract_section_usage_lineE
  rw [if_neg]
  push_neg
  refine ⟨h, ?_⟩
  rw [pyStrip_idem]
  exact h

theorem C1_witness :
    pyStrip (joinSep (str " ") [foxLine]) ≠ [] ∧
    flushE coFail (str "d")
      { initState with sectionContent := [foxLine] } = Except.error () :=
  ⟨by decide,
   C1_fact_error_aborts_flush (fun t => [t]) (str "d")
     { initState with sectionContent := [foxLine] } (by decide)⟩

/-- C2: the claim (and the spec) say that when an appendix header is
seen while in the references state, nothing is emitted at the
transition and no pre-references text is ever emitted twice.  The code
violates this: entering the references state (lines 301-306, 313-315)
appends and flushes `current_part` but never resets it, so when the
references header and the appendix header fall inside the same
blank-line-separated block, the stale `current_part` is appended and
flushed a second time at the appendix transition (lines 286-288).  On
`dupBlock` the sentence preceding the `References` header is emitted
twice — as a duplicate chunk and a duplicate fact-sentence — exactly at
that transition.  This theorem evaluates the segmenter at the failing
input. -/
theorem C2_duplicate_emission :
    runBlocks coId (str "d") [dupBlock] =
      { inRefs := false, curSection := some (str "Appendix A"), curSubsection := none,
        sectionContent := [], currentPart := [appxLine],
        chunks := [RAGChunk.mk (str "d") foxLine (some (str "Abstract")) none,
                   RAGChunk.mk (str "d") foxLine (some (str "Abstract")) none,
                   RAGChunk.mk (str "d") appxLine (some (str "Appendix A")) none],
        sectionSentences := [foxLine, foxLine, appxLine] } := by decide

/-- C7, counterexample: appending a well-formed, classifier-accepted
sentence to an accepted window can flip the classification to rejected.
`repWindow` is accepted (distinct-word fraction 4/10), but appending the
same accepted sentence again drops the distinct-word fraction to
4/20 < 0.30, so the extended window is rejected — the claimed
append-monotonicity fails. -/
theorem C7_counterexample :
    is_proper_chunk_text repWindow = true ∧
    is_proper_chunk_text (repWindow ++ str " " ++ repWindow) = false := by decide

/-- C7, amended: truncating a window below 5 words always flips the
classification to rejected (any text with fewer than 5 words is
rejected); appending well-formed sentences to an accepted window,
however, does not always preserve acceptance — added repetition can
drive the distinct-word fraction below 0.30. -/
theorem C7_truncation (s : Str) (h : (pySplit (pyStrip s)).length < 5) :
    is_proper_chunk_text s = false := by
  simp only [is_proper_chunk_text]
  rw [if_pos (Or.inr (Or.inr h))]

theorem C7_witness :
    (pySplit (pyStrip (str "one two three"))).length < 5 ∧
    is_proper_chunk_text (str "one two three") = false :=
  ⟨by decide, C7_truncation (str "one two three") (by decide)⟩

/-- C9: `_condense_sentences_to_summary` applied to an empty
fact-sentence list returns the empty summary having issued no
summarizer request, and feeding that empty summary to `_embed_text`
issues no embedding request and leaves the document summary embedding
absent (`none`), whatever the two collaborators would have answered. -/
theorem C9_empty_facts : ∀ {Vec : Type} (so : Str → Str) (eo : Str → List Vec),
    condense_sentences_to_summary so [] = ([], 0) ∧
    embed_text eo (condense_sentences_to_summary so []).1 = (none, 0) := by
  intro Vec so eo
  exact ⟨rfl, rfl⟩

/-- C10: `_sanitize_text_for_db` returns `none` exactly on `None`;
otherwise it filters the string with the character predicate of the
claim (removing the null byte and every code point below 32 other than
newline, carriage return and tab), hence returns an order-preserving
subsequence containing no character PostgreSQL text columns reject, and
returns any string already free of such characters unchanged. -/
theorem C10_sanitize :
    sanitize_text_for_db none = none ∧
    (∀ s, sanitize_text_for_db (some s) = some (s.filter (fun c => !pgRejected c))) ∧
    (∀ s t, sanitize_text_for_db (some s) = some t →
      t.Sublist s ∧ ∀ c ∈ t, pgRejected c = false) ∧
    (∀ s, (∀ c ∈ s, pgRejected c = false) → sanitize_text_for_db (some s) = some s) := by
  have hfilter : ∀ s, sanitize_text_for_db (some s) =
      some (s.filter (fun c => !pgRejected c)) := by
    intro s
    have hdef : sanitize_text_for_db (some s) =
        some (s.filter (fun c =>
          !(c == '\x00') && (decide (32 ≤ c.toNat) || c == '\n' || c == '\r' || c == '\t'))) :=
      rfl
    rw [hdef]
    congr 1
    exact List.filter_congr (fun c _ => keepChar_eq c)
  refine ⟨rfl, hfilter, ?_, ?_⟩
  · intro s t h
    rw [hfilter s] at h
    injection h with h
    subst h
    constructor
    · exact List.filter_sublist s
    · intro c hc
      have := List.of_mem_filter hc
      simpa using this
  · intro s h
    rw [hfilter s]
    congr 1
    apply List.filter_eq_self.mpr
    intro c hc
    rw [h c hc]
    rfl

/-- C4: in the NORMAL state, a line matching the numbered-header pattern
(with the at-most-15-token guard) whose title contains `references` or
`bibliography` is handled as a references header: the state enters
IN_REFERENCES and neither the current section nor the current subsection
changes, so no new section or subsection is opened from that line.  This
holds both when the standalone references detector (checked first)
already fires, and otherwise through the embedded-references check that
precedes section opening. -/
theorem C4_refs_precedence (co : Collab) (docId : Str) (st : PState) (line : Str)
    (hnr : st.inRefs = false) (num title : Str)
    (hm : headerMatch (pyStrip line) = some (num, title))
    (htok : (pySplit (pyStrip line)).length ≤ 15)
    (href : isRefsOrBib (pyStrip title) = true) :
    (processLine co docId st line).inRefs = true ∧
    (processLine co docId st line).curSection = st.curSection ∧
    (processLine co docId st line).curSubsection = st.curSubsection := by
  have hpres : ∀ s : PState,
      (flush co docId (appendPart s)).curSection = s.curSection ∧
      (flush co docId (appendPart s)).curSubsection = s.curSubsection := by
    intro s
    refine ⟨?_, ?_⟩
    · rw [(flush_fields co docId (appendPart s)).2.1, (appendPart_fields s).2.1]
    · rw [(flush_fields co docId (appendPart s)).2.2.1, (appendPart_fields s).2.2.1]
  unfold processLine
  rw [hnr]
  simp only [Bool.false_eq_true, if_false]
  by_cases hs : isStandaloneRefsHeader (pyStrip line) = true
  · rw [if_pos hs]
    exact ⟨rfl, (hpres st).1, (hpres st).2⟩
  · rw [if_neg hs, hm]
    simp only
    rw [if_pos htok, if_pos href]
    exact ⟨rfl, (hpres st).1, (hpres st).2⟩

theorem C4_witness :
    (processLine coId (str "d") initState (str "6 Selected References")).inRefs = true ∧
    (processLine coId (str "d") initState (str "6 Selected References")).curSection =
      initState.curSection ∧
    (processLine coId (str "d") initState (str "6 Selected References")).curSubsection =
      initState.curSubsection :=
  C4_refs_precedence coId (str "d") initState (str "6 Selected References") rfl
    (str "6") (str "Selected References") (by decide) (by decide) (by decide)

/-- C5: `_is_standalone_references_header` agrees on every line with the
spec's characterization (at most 10 tokens AND (exactly
`references`/`bibliography` in lowercase, OR the anchored
`number(.number)* references|bibliography` pattern followed by
whitespace or end, OR at most 4 tokens and a `references `/
`bibliography ` lowercase prefix)); in particular a longer title that
merely contains the word, such as `Learning to Retrieve References`, is
not a references header. -/
theorem C5_standalone_refs_spec :
    (∀ line, isStandaloneRefsHeader line = specStandaloneRefs line) ∧
    isStandaloneRefsHeader (str "Learning to Retrieve References") = false := by
  refine ⟨?_, by decide⟩
  intro line
  simp only [isStandaloneRefsHeader, specStandaloneRefs]
  by_cases h10 : (pySplit (pyStrip line)).length > 10
  · rw [if_pos (Or.inr h10)]
    have hle : decide ((pySplit (pyStrip line)).length ≤ 10) = false :=
      decide_eq_false (by omega)
    rw [hle, Bool.false_and]
  · have hle : decide ((pySplit (pyStrip line)).length ≤ 10) = true :=
      decide_eq_true (by omega)
    rw [hle, Bool.true_and]
    by_cases h0 : pyStrip line = []
    · rw [if_pos (Or.inl h0), h0]
      decide
    · rw [if_neg (by push_neg; exact ⟨h0, by omega⟩), ifChain]
      rw [Bool.eq_iff_iff]
      simp only [Bool.or_eq_true, Bool.and_eq_true, decide_eq_true_eq, beq_iff_eq]

theorem C10_witness :
    sanitize_text_for_db (some (str "hello world")) = some (str "hello world") :=
  C10_sanitize.2.2.2 (str "hello world") (by decide)

theorem qdiv_le_iff (a n p q : ℕ) (hn : 0 < n) (hq : 0 < q) :
    ((a : ℚ) / (n : ℚ) ≤ (p : ℚ) / (q : ℚ)) ↔ a * q ≤ p * n := by
  rw [div_le_div_iff₀ (by exact_mod_cast hn) (by exact_mod_cast hq)]
  rw [← Nat.cast_mul, ← Nat.cast_mul, Nat.cast_le]

theorem qdiv_ge_iff (a n p q : ℕ) (hn : 0 < n) (hq : 0 < q) :
    ((p : ℚ) / (q : ℚ) ≤ (a : ℚ) / (n : ℚ)) ↔ p * n ≤ a * q := by
  rw [div_le_div_iff₀ (by exact_mod_cast hq) (by exact_mod_cast hn)]
  rw [← Nat.cast_mul, ← Nat.cast_mul, Nat.cast_le]

/-- C3: `_is_proper_chunk_text` accepts a window exactly under the
spec's conjunction of conditions, with the ratio thresholds read as the
exact rationals 0.40, 0.28, 0.50, 0.30 and 3.2 (the Python code
compares floats; the model treats the comparisons as exact). -/
theorem C3_classifier_spec (w : Str) :
    is_proper_chunk_text w = true ↔ C3SpecAccept w := by
  simp only [is_proper_chunk_text, C3SpecAccept]
  by_cases hg : pyStrip w = [] ∨ (pyStrip w).length < 35 ∨ (pySplit (pyStrip w)).length < 5
  · rw [if_pos hg]
    simp only [Bool.false_eq_true, false_iff]
    rintro ⟨h35, h5, -⟩
    rcases hg with h | h | h
    · rw [h] at h35; simp at h35
    · omega
    · omega
  · rw [if_neg hg]
    push_neg at hg
    obtain ⟨hne, h35, h5⟩ := hg
    have hn : 0 < (pyStrip w).length := by omega
    have hnw : 0 < (pySplit (pyStrip w)).length := by omega
    have e40 : (0.40 : ℚ) = ((2 : ℕ) : ℚ) / ((5 : ℕ) : ℚ) := by norm_num
    have e28 : (0.28 : ℚ) = ((7 : ℕ) : ℚ) / ((25 : ℕ) : ℚ) := by norm_num
    have e50 : (0.50 : ℚ) = ((1 : ℕ) : ℚ) / ((2 : ℕ) : ℚ) := by norm_num
    have e30 : (0.30 : ℚ) = ((3 : ℕ) : ℚ) / ((10 : ℕ) : ℚ) := by norm_num
    have e32 : (3.2 : ℚ) = ((16 : ℕ) : ℚ) / ((5 : ℕ) : ℚ) := by norm_num
    rw [e40, e28, e50, e30, e32]
    rw [qdiv_le_iff _ _ _ _ hn (by norm_num), qdiv_le_iff _ _ _ _ hnw (by norm_num),
      qdiv_ge_iff _ _ _ _ hnw (by norm_num), qdiv_ge_iff _ _ _ _ hnw (by norm_num),
      qdiv_ge_iff _ _ _ _ hnw (by norm_num)]
    simp only [Bool.and_eq_true, Bool.or_eq_true, decide_eq_true_eq, Bool.not_eq_true',
      Bool.and_eq_false_iff, decide_eq_false_iff_not]
    constructor
    · rintro ⟨⟨⟨⟨⟨hd, hs1⟩, ha⟩, hu⟩, he⟩, hup⟩
      refine ⟨by omega, by omega, by omega, by omega, by omega, by omega, ?_, ?_⟩
      · rcases he with he | he
        · exact Or.inl he
        · exact Or.inr (by omega)
      · rintro ⟨hupper, hlen⟩
        rcases hup with h | h
        · rw [hupper] at h; exact absurd h (by simp)
        · omega
    · rintro ⟨_, _, hd, hs1, ha, hu, he, hup⟩
      refine ⟨⟨⟨⟨⟨by omega, by omega⟩, by omega⟩, by omega⟩, ?_⟩, ?_⟩
      · rcases he with he | he
        · exact Or.inl he
        · exact Or.inr (by omega)
      · by_cases hupper : pyIsUpper (pyStrip w) = true
        · exact Or.inr (by intro hlen; exact hup ⟨hupper, hlen⟩)
        · exact Or.inl (by simpa using hupper)

theorem C3_witness :
    C3SpecAccept
      (str "The method achieves 94% accuracy on the test set using a transformer encoder.") :=
  (C3_classifier_spec
    (str "The method achieves 94% accuracy on the test set using a transformer encoder.")).mp
    (by decide)

theorem findAbstractStart_none (ls : List Str) (k : Nat)
    (h : ∀ l ∈ ls, isAbstractLine l = false) : findAbstractStart ls k = none := by
  induction ls generalizing k with
  | nil => rfl
  | cons a t ih =>
    unfold findAbstractStart
    rw [if_neg (by rw [h a (by simp)]; simp)]
    exact ih _ (fun l hl => h l (by simp [hl]))

theorem findAbstractStart_first (ls : List Str) (i k : Nat) (hlen : i < ls.length)
    (hi : isAbstractLine (ls.getD i []) = true)
    (hj : ∀ j, j < i → isAbstractLine (ls.getD j []) = false) :
    findAbstractStart ls k = some (k + i + 1) := by
  induction ls generalizing i k with
  | nil => simp at hlen
  | cons a t ih =>
    unfold findAbstractStart
    cases i with
    | zero =>
      simp only [List.getD_cons_zero] at hi
      rw [if_pos hi]
    | succ i' =>
      have ha : isAbstractLine a = false := by
        have := hj 0 (by omega)
        simpa using this
      rw [if_neg (by rw [ha]; simp)]
      have := ih i' (k + 1) (by simpa using hlen)
        (by simpa using hi)
        (fun j hj' => by
          have := hj (j + 1) (by omega)
          simpa using this)
      rw [this]
      congr 1
      omega

/-- C8: the first-page pre-trim.  If some line of the (stripped)
first-page text is a whole-line `Abstract` marker (case-insensitive,
surrounding whitespace allowed) and it is the first such line, the
opening section content is the join of the lines strictly after it —
all lines before and including the marker are discarded; if no line is
such a marker, the first-page text is returned verbatim. -/
theorem C8_first_page_trim (t : Str) :
    ((∀ l ∈ splitNL t, isAbstractLine l = false) → firstPageFromAbstract t = t) ∧
    (∀ i, i < (splitNL t).length → isAbstractLine ((splitNL t).getD i []) = true →
      (∀ j, j < i → isAbstractLine ((splitNL t).getD j []) = false) →
      firstPageFromAbstract t =
        pyStrip (joinSep (str "\n") ((splitNL t).drop (i + 1)))) := by
  constructor
  · intro h
    simp only [firstPageFromAbstract]
    rw [findAbstractStart_none _ 0 h]
  · intro i hlen hi hj
    simp only [firstPageFromAbstract]
    rw [findAbstractStart_first _ i 0 hlen hi hj]
    simp

theorem C8_witness :
    firstPageFromAbstract (str "Title\nAuthor One\nAbstract\nBody text here\nmore body") =
      pyStrip (joinSep (str "\n")
        ((splitNL (str "Title\nAuthor One\nAbstract\nBody text here\nmore body")).drop 3)) ∧
    firstPageFromAbstract (str "no marker\nanywhere here") = str "no marker\nanywhere here" :=
  ⟨(C8_first_page_trim (str "Title\nAuthor One\nAbstract\nBody text here\nmore body")).2
      2 (by decide) (by decide)
      (fun j hj => by
        interval_cases j <;> decide),
   (C8_first_page_trim (str "no marker\nanywhere here")).1 (by decide)⟩

theorem goodSub_mono {L L' : List Str} {o : Option Str} (h : GoodSub L o)
    (hsub : ∀ s ∈ L, s ∈ L') : GoodSub L' o :=
  fun s hs => ⟨(h s hs).1, hsub _ (h s hs).2⟩

theorem goodState_mono {L L' : List Str} {st : PState} (h : GoodState L st)
    (hsub : ∀ s ∈ L, s ∈ L') : GoodState L' st :=
  ⟨h.1, goodSub_mono h.2.1 hsub, fun c hc => ⟨(h.2.2 c hc).1, goodSub_mono (h.2.2 c hc).2 hsub⟩⟩

theorem good_appendPart (L : List Str) (st : PState) (h : GoodState L st) :
    GoodState L (appendPart st) := by
  unfold appendPart
  split
  · exact ⟨h.1, h.2.1, h.2.2⟩
  · exact h

theorem good_flush (co : Collab) (docId : Str) (L : List Str) (st : PState)
    (h : GoodState L st) : GoodState L (flush co docId st) := by
  obtain ⟨h1, h2, h3⟩ := h
  simp only [flush]
  split
  · exact ⟨h1, h2, h3⟩
  · split
    · exact ⟨h1, h2, h3⟩
    · refine ⟨?_, ?_, ?_⟩
      · split <;> exact h1
      · split <;> exact h2
      · intro c hc
        have hc' : c ∈ (if extract_section_usage_line co.factFn
              (pyStrip (joinSep (str " ") st.sectionContent)) ≠ [] then
              { st with sectionSentences := st.sectionSentences ++
                  [extract_section_usage_line co.factFn
                    (pyStrip (joinSep (str " ") st.sectionContent))] }
            else st).chunks ++ _ := hc
        rw [List.mem_append] at hc'
        rcases hc' with hold | hnew
        · have hc2 : c ∈ st.chunks := by
            revert hold
            split <;> exact fun h9 => h9
          exact h3 c hc2
        · rw [List.mem_map] at hnew
          obtain ⟨content, _, hcEq⟩ := hnew
          subst hcEq
          exact ⟨h1, h2⟩

theorem SubHeaderLine_of (ls num title : Str) (hm : headerMatch ls = some (num, title))
    (hdot : num.contains '.' = true) (htok : (pySplit ls).length ≤ 15) :
    SubHeaderLine ls = true := by
  unfold SubHeaderLine
  rw [hm]
  show (num.contains '.' && decide ((pySplit ls).length ≤ 15)) = true
  rw [hdot]
  simp [htok]

theorem good_applyHeader (L : List Str) (st : PState) (ls : Str)
    (h : GoodState L st) (hmem : ls ∈ L) :
    GoodState L (applyHeaderAfterAppendix st ls) := by
  obtain ⟨h1, h2, h3⟩ := h
  unfold applyHeaderAfterAppendix
  split
  next num title hm =>
    split
    next htok =>
      split
      next hdot =>
        refine ⟨h1, ?_, h3⟩
        intro s hs
        rw [Option.some.injEq] at hs
        subst hs
        exact ⟨SubHeaderLine_of _ _ _ hm hdot htok, hmem⟩
      next => exact ⟨by simp, fun s hs => by simp at hs, h3⟩
    next => exact ⟨by simp, fun s hs => by simp at hs, h3⟩
  next => exact ⟨by simp, fun s hs => by simp at hs, h3⟩

theorem good_processLine (co : Collab) (docId : Str) (L : List Str) (st : PState)
    (line : Str) (h : GoodState L st) :
    GoodState (L ++ [pyStrip line]) (processLine co docId st line) := by
  have hmono : ∀ s ∈ L, s ∈ L ++ [pyStrip line] := fun s hs => List.mem_append_left _ hs
  have h' : GoodState (L ++ [pyStrip line]) st := goodState_mono h hmono
  have hmem : pyStrip line ∈ L ++ [pyStrip line] := List.mem_append_right _ (by simp)
  simp only [processLine]
  split
  · split
    · have hgood : GoodState (L ++ [pyStrip line])
          (flush co docId (appendPart { st with inRefs := false })) :=
        good_flush _ _ _ _ (good_appendPart _ _ ⟨h'.1, h'.2.1, h'.2.2⟩)
      have := good_applyHeader _ _ (pyStrip line) hgood hmem
      exact ⟨this.1, this.2.1, this.2.2⟩
    · exact h'
  · split
    · have hgood : GoodState (L ++ [pyStrip line]) (flush co docId (appendPart st)) :=
        good_flush _ _ _ _ (good_appendPart _ _ h')
      exact ⟨hgood.1, hgood.2.1, hgood.2.2⟩
    · split
      next num title hm =>
        split
        next htok =>
          have hgood : GoodState (L ++ [pyStrip line]) (flush co docId (appendPart st)) :=
            good_flush _ _ _ _ (good_appendPart _ _ h')
          split
          · exact ⟨hgood.1, hgood.2.1, hgood.2.2⟩
          · split
            next hdot =>
              refine ⟨hgood.1, ?_, hgood.2.2⟩
              intro s hs
              rw [Option.some.injEq] at hs
              subst hs
              exact ⟨SubHeaderLine_of _ _ _ hm hdot htok, hmem⟩
            next => exact ⟨by simp, fun s hs => by simp at hs, hgood.2.2⟩
        next => exact h'
      next => exact h'

theorem good_foldLines (co : Collab) (docId : Str) (lines : List Str)
    (L : List Str) (st : PState) (h : GoodState L st) :
    GoodState (L ++ lines.map pyStrip) (lines.foldl (processLine co docId) st) := by
  induction lines generalizing L st with
  | nil => simpa using h
  | cons l t ih =>
    have h1 := good_processLine co docId L st l h
    have h2 := ih (L ++ [pyStrip l]) _ h1
    simpa using h2

theorem good_processBlock (co : Collab) (docId : Str) (L : List Str) (st : PState)
    (block : Str) (h : GoodState L st) :
    GoodState (L ++ (splitNL block).map pyStrip) (processBlock co docId st block) := by
  unfold processBlock blockEnd
  have h0 : GoodState L { st with currentPart := ([] : List Str) } := ⟨h.1, h.2.1, h.2.2⟩
  have h1 := good_foldLines co docId (splitNL block) L _ h0
  split
  · exact good_appendPart _ _ h1
  · exact h1

theorem good_runBlocks (co : Collab) (docId : Str) (blocks : List Str) :
    GoodState (observedLines blocks) (runBlocks co docId blocks) := by
  have hfold : ∀ (bs : List Str) (L : List Str) (st : PState), GoodState L st →
      GoodState (L ++ observedLines bs) (bs.foldl (processBlock co docId) st) := by
    intro bs
    induction bs with
    | nil => intro L st h; simpa [observedLines] using h
    | cons b t ih =>
      intro L st h
      have h1 := good_processBlock co docId L st b h
      have h2 := ih _ _ h1
      simp only [observedLines] at h2 ⊢
      simpa [List.flatMap_cons, List.append_assoc] using h2
  have hinit : GoodState ([] : List Str) initState := by
    refine ⟨by simp [initState], ?_, ?_⟩
    · intro s hs
      simp [initState] at hs
    · intro c hc
      simp [initState] at hc
  have h := hfold blocks [] initState hinit
  simp only [List.nil_append] at h
  simp only [runBlocks]
  split
  · exact good_flush _ _ _ _ h
  · exact h

theorem processLine_secsub (co : Collab) (docId : Str) (st : PState) (line : Str) :
    (processLine co docId st line).curSection = st.curSection ∨
    (processLine co docId st line).curSubsection = none := by
  have hsec : ∀ s : PState, (flush co docId (appendPart s)).curSection = s.curSection := by
    intro s
    rw [(flush_fields co docId (appendPart s)).2.1, (appendPart_fields s).2.1]
  simp only [processLine]
  split
  · split
    · unfold applyHeaderAfterAppendix
      split
      · split
        · split
          · left
            exact hsec { st with inRefs := false }
          · right
            rfl
        · right
          rfl
      · right
        rfl
    · left
      rfl
  · split
    · left
      exact hsec st
    · split
      · split
        · split
          · left
            exact hsec st
          · split
            · left
              exact hsec st
            · right
              rfl
        · left
          rfl
      · left
        rfl

/-- C6: (1) the initial section label is the sentinel `Abstract` and is
non-null; (2) every chunk emitted by a whole run has a non-null section
label, and whenever its subsection label is present, that label is
itself a numbered subsection-header line (numeric prefix containing a
dot, at most 15 tokens) observed among the input lines; (3) any step
that changes the current section label leaves the current subsection
cleared (`none`) — so a chunk can carry a subsection label only if a
subsection header was processed after the most recent section-level
change and before the chunk's flush. -/
theorem C6_chunk_labels :
    initState.curSection = some (str "Abstract") ∧
    (∀ (co : Collab) (docId : Str) (blocks : List Str) (c : RAGChunk),
      c ∈ (runBlocks co docId blocks).chunks →
      c.sec ≠ none ∧ ∀ s, c.subsection = some s →
        SubHeaderLine s = true ∧ s ∈ observedLines blocks) ∧
    (∀ (co : Collab) (docId : Str) (st : PState) (line : Str),
      (processLine co docId st line).curSection ≠ st.curSection →
      (processLine co docId st line).curSubsection = none) := by
  refine ⟨rfl, ?_, ?_⟩
  · intro co docId blocks c hc
    have h := good_runBlocks co docId blocks
    exact ⟨(h.2.2 c hc).1, fun s hs => (h.2.2 c hc).2 s hs⟩
  · intro co docId st line hchange
    rcases processLine_secsub co docId st line with h | h
    · exact absurd h hchange
    · exact h

theorem C6_witness :
    ((RAGChunk.mk (str "d")
        (str "the method text has thirty five characters or more in it.")
        (some (str "2 Method")) none).sec ≠ none ∧
      ∀ s, (RAGChunk.mk (str "d")
        (str "the method text has thirty five characters or more in it.")
        (some (str "2 Method")) none).subsection = some s →
        SubHeaderLine s = true ∧
        s ∈ observedLines
          [str "2 Method\nthe method text has thirty five characters or more in it."]) ∧
    (processLine coId (str "d") initState (str "2 Method")).curSubsection = none :=
  ⟨C6_chunk_labels.2.1 coId (str "d")
      [str "2 Method\nthe method text has thirty five characters or more in it."] _
      (by decide),
   C6_chunk_labels.2.2 coId (str "d") initState (str "2 Method") (by decide)⟩

/-! ### The exception-aware loop specializes to the total loop

With a fact-sentence oracle that never raises, the `Except`-based
definitions compute exactly the total ones — the two renderings of
`process_document` above are the same code. -/

theorem extractE_ok (sp : Str → Str) (x : Str) :
    extract_section_usage_lineE (fun t => Except.ok (sp t)) x =
    Except.ok (extract_section_usage_line sp x) := by
  unfold extract_section_usage_lineE extract_section_usage_line
  split <;> rfl

theorem flushE_ok (sp : Str → List Str) (f : Str → Str) (docId : Str) (st : PState) :
    flushE ⟨sp, fun t => Except.ok (f t)⟩ docId st =
    Except.ok (flush ⟨sp, f⟩ docId st) := by
  simp only [flushE, flush]
  split
  · rfl
  · split
    · rfl
    · rw [extractE_ok]

theorem processLineE_ok (sp : Str → List Str) (f : Str → Str) (docId : Str)
    (st : PState) (line : Str) :
    processLineE ⟨sp, fun t => Except.ok (f t)⟩ docId st line =
    Except.ok (processLine ⟨sp, f⟩ docId st line) := by
  simp only [processLineE, processLine]
  split
  · split
    · rw [flushE_ok]
    · rfl
  · split
    · rw [flushE_ok]
    · split
      · split
        · rw [flushE_ok]
          split
          next heq => exact absurd heq (by simp)
          next st2 heq =>
            rw [Except.ok.injEq] at heq
            subst heq
            split
            · rfl
            · split <;> rfl
        · rfl
      · rfl

theorem foldLinesE_ok (sp : Str → List Str) (f : Str → Str) (docId : Str)
    (lines : List Str) (st : PState) :
    List.foldlM (processLineE ⟨sp, fun t => Except.ok (f t)⟩ docId) st lines =
    Except.ok (List.foldl (processLine ⟨sp, f⟩ docId) st lines) := by
  induction lines generalizing st with
  | nil => rfl
  | cons l t ih =>
    rw [List.foldlM_cons, processLineE_ok]
    show List.foldlM (processLineE ⟨sp, fun t => Except.ok (f t)⟩ docId)
        (processLine ⟨sp, f⟩ docId st l) t = _
    rw [ih, List.foldl_cons]

theorem processBlockE_ok (sp : Str → List Str) (f : Str → Str) (docId : Str)
    (st : PState) (block : Str) :
    processBlockE ⟨sp, fun t => Except.ok (f t)⟩ docId st block =
    Except.ok (processBlock ⟨sp, f⟩ docId st block) := by
  simp only [processBlockE, processBlock]
  rw [foldLinesE_ok]

theorem runBlocksE_ok (sp : Str → List Str) (f : Str → Str) (docId : Str)
    (blocks : List Str) :
    runBlocksE ⟨sp, fun t => Except.ok (f t)⟩ docId blocks =
    Except.ok (runBlocks ⟨sp, f⟩ docId blocks) := by
  have hfold : ∀ (bs : List Str) (st : PState),
      List.foldlM (processBlockE ⟨sp, fun t => Except.ok (f t)⟩ docId) st bs =
      Except.ok (List.foldl (processBlock ⟨sp, f⟩ docId) st bs) := by
    intro bs
    induction bs with
    | nil => intro st; rfl
    | cons b t ih =>
      intro st
      rw [List.foldlM_cons, processBlockE_ok]
      show List.foldlM (processBlockE ⟨sp, fun t => Except.ok (f t)⟩ docId)
          (processBlock ⟨sp, f⟩ docId st b) t = _
      rw [ih, List.foldl_cons]
  simp only [runBlocksE, runBlocks]
  rw [hfold]
  split
  next heq => exact absurd heq (by simp)
  next st3 heq =>
    rw [Except.ok.injEq] at heq
    subst heq
    split
    · rw [flushE_ok]
    · rfl

end PaperQA
